import Mathlib

/-!
Verification of the cache-backed collection layer of the country-directory
program (`src/collectors/collector.py`, `src/collectors/models.py`).

The Python code is shallowly embedded: JSON payloads become the inductive
`JValue` (JSON numbers are modelled as `Int`; no claim depends on fractional
values), the on-disk cache becomes an association list from file paths to
entries carrying a last-write instant, wall-clock time is an explicit `Int`
parameter, remote clients become explicit response arguments (`JValue.null`
models a client that returned `None` for a non-success response), and Python
exceptions become the `PyError` sum surfaced through `Except`.
-/

/-- JSON values as produced by `json.loads`. Numbers are modelled as `Int`. -/
inductive JValue where
  | null
  | bool (b : Bool)
  | str (s : String)
  | num (n : Int)
  | arr (items : List JValue)
  | obj (fields : List (String × JValue))

/-- Python exceptions that the embedded code can raise.  `fileNotFound` is the
`FileNotFoundError` of opening a never-written cache file (the spec's
`CacheMissing`); `validationError` is pydantic's `ValidationError` (the spec's
`DecodeError`). -/
inductive PyError where
  | fileNotFound
  | keyError (k : String)
  | typeError
  | indexError
  | validationError
deriving DecidableEq

/-- Python truthiness (`if result:`) of a loaded JSON value. -/
def JValue.truthy : JValue → Bool
  | .null => false
  | .bool b => b
  | .str s => s ≠ ""
  | .num n => n ≠ 0
  | .arr items => !items.isEmpty
  | .obj fields => !fields.isEmpty

/-- Python subscription `v[k]` on a loaded JSON value: `KeyError` when the key
is absent, `TypeError` when `v` is not a dict. -/
def JValue.index (v : JValue) (k : String) : Except PyError JValue :=
  match v with
  | .obj fields =>
    match fields.lookup k with
    | some x => .ok x
    | none => .error (.keyError k)
  | _ => .error .typeError

/-- A pydantic `str` field: the JSON value must be a string. -/
def JValue.asStr (v : JValue) : Except PyError String :=
  match v with
  | .str s => .ok s
  | _ => .error .validationError

/-- A pydantic numeric field (`int`, `float`, `datetime` from an epoch
number): the JSON value must be a number. -/
def JValue.asNum (v : JValue) : Except PyError Int :=
  match v with
  | .num n => .ok n
  | _ => .error .validationError

/-- Python list indexing `l[i]`: negative indices address from the end,
anything outside `[-len, len)` raises `IndexError`. -/
def pyListIndex (l : List JValue) (i : Int) : Except PyError JValue :=
  let j := if i < 0 then i + l.length else i
  if h : 0 ≤ j ∧ j < l.length then
    .ok (l.get ⟨j.toNat, by omega⟩)
  else .error .indexError

/-- Python `v[i]` for an integer index: `TypeError` when `v` is not a list. -/
def JValue.listIndex (v : JValue) (i : Int) : Except PyError JValue :=
  match v with
  | .arr l => pyListIndex l i
  | _ => .error .typeError

/-- One cached file: the JSON payload it holds and the instant of its last
write (the file's modification time). -/
structure CacheEntry where
  payload : JValue
  written : Int

/-- The cache directory: an association of file paths to entries.  A write
prepends, and lookup takes the most recent binding, which models
overwriting. -/
def Cache := List (String × CacheEntry)

/-- Most recent entry stored for a path, if any (`exists`/`read` of the cache
store). -/
def cacheLookup : Cache → String → Option CacheEntry
  | [], _ => none
  | (k, e) :: rest, key => if k = key then some e else cacheLookup rest key

/-- `write(key, payload)` at instant `now`: persists the payload and stamps
the last-write time. -/
def cacheWrite (c : Cache) (key : String) (p : JValue) (now : Int) : Cache :=
  (key, ⟨p, now⟩) :: c

/-- Modelled from the spec: `BaseCollector.cache_invalid` lives in
`collectors/base.py`, which is not part of the sources; the spec defines the
staleness predicate as `isStale(key, ttl) = !exists(key) or age(key) >= ttl`,
with the age measured from the last write.  This is the single freshness test
every embedded collector below uses. -/
def isStale (c : Cache) (key : String) (ttl now : Int) : Bool :=
  match cacheLookup c key with
  | none => true
  | some e => decide (ttl ≤ now - e.written)

/-- Durable storage: the set of directories that exist plus the cached
files. -/
structure FS where
  dirs : List String
  cache : Cache

/-- `aiofiles.os.mkdir` guarded by `aiofiles.os.path.exists`. -/
def ensureDir (fs : FS) (d : String) : FS :=
  if fs.dirs.contains d then fs else { fs with dirs := d :: fs.dirs }

/-- `LocationDTO` of `collectors/models.py` (country, capital, ISO alpha-2
code). -/
structure LocationDTO where
  country : String
  capital : String
  alpha2code : String
deriving DecidableEq

/-- `CurrencyRatesDTO` of `collectors/models.py`; `rates : dict[str, float]`
is modelled with `Int` values. -/
structure CurrencyRatesDTO where
  base : String
  date : String
  rates : List (String × Int)
deriving DecidableEq

/-- `WeatherInfoDTO` of `collectors/models.py`; numeric fields (floats and the
epoch datetime) are modelled as `Int`. -/
structure WeatherInfoDTO where
  date_time : Int
  utc_timezone : Int
  temp : Int
  pressure : Int
  humidity : Int
  wind_speed : Int
  description : String
  visibility : Int
deriving DecidableEq

/-- `NewsDTO` of `collectors/models.py`; `published_at` keeps the raw string
(pydantic parses it into a datetime; format validity is not modelled). -/
structure NewsDTO where
  source : String
  author : String
  published_at : String
  title : String
  description : String
deriving DecidableEq

/-- `MEDIA_PATH` comes from `settings.py` (not part of the sources); its value
only namespaces the cache keys, so a fixed root is used. -/
def MEDIA_PATH : String := "media"

/-- Observable actions of a collection run: a collector being invoked (with
the locations argument it received, `none` for collectors that take none or a
Python `None`), a remote-client call refreshing one cache key, and a collector
returning. -/
inductive Event where
  | start (category : String) (arg : Option (List LocationDTO))
  | remote (category : String) (key : String)
  | done (category : String)
deriving DecidableEq

/-- Category of an event, for ordering statements. -/
def Event.category : Event → String
  | .start c _ => c
  | .remote c _ => c
  | .done c => c

/-- Python's `str.lower()`, character by character (all the strings involved
are ASCII). -/
def pyLower (s : String) : String := ⟨s.data.map Char.toLower⟩

/-- `CountryCollector.get_file_path`. -/
def CountryCollector.get_file_path : String := MEDIA_PATH ++ "/country.json"

/-- `CurrencyRatesCollector.get_file_path`. -/
def CurrencyRatesCollector.get_file_path : String := MEDIA_PATH ++ "/currency_rates.json"

/-- `WeatherCollector.get_file_path`. -/
def WeatherCollector.get_file_path (filename : String) : String :=
  MEDIA_PATH ++ "/weather/" ++ filename ++ ".json"

/-- `NewsCollector.get_file_path`. -/
def NewsCollector.get_file_path (filename : String) : String :=
  MEDIA_PATH ++ "/news/" ++ filename ++ ".json"

/-- The refresh step shared verbatim by `CurrencyRatesCollector.collect` and
`CountryCollector.collect`: when the single cached file is stale, call the
remote client (the `response` argument) and, on a truthy result, write it;
otherwise leave the cache as it is.  Returns the new storage state and the
remote calls performed. -/
def refreshSingle (category key : String) (fs : FS) (ttl now : Int) (response : JValue) :
    FS × List Event :=
  if isStale fs.cache key ttl now then
    if response.truthy then
      ({ fs with cache := cacheWrite fs.cache key response now }, [Event.remote category key])
    else (fs, [Event.remote category key])
  else (fs, [])

/-- `CurrencyRatesCollector.collect`: refresh the single rate-table cache file
when stale, writing only a truthy `CurrencyClient.get_rates` response. -/
def CurrencyRatesCollector.collect (fs : FS) (ttl now : Int) (response : JValue) :
    FS × List Event :=
  refreshSingle "currency_rates" CurrencyRatesCollector.get_file_path fs ttl now response

/-- `CurrencyRatesCollector.read`: `dict[str, float]` of rates; every value
must be a number. -/
def JValue.asRatesDict (v : JValue) : Except PyError (List (String × Int)) :=
  match v with
  | .obj fields => go fields
  | _ => .error .validationError
where
  go : List (String × JValue) → Except PyError (List (String × Int))
  | [] => .ok []
  | (k, x) :: rest => do
    let n ← x.asNum
    let tail ← go rest
    .ok ((k, n) :: tail)

/-- `CurrencyRatesCollector.read`: open the cached file (raising
`FileNotFoundError` when it was never written), decode the payload into a
`CurrencyRatesDTO`.  A present entry always holds the non-empty string written
by `json.dumps`, so the source's `if content:` test is true whenever the entry
exists. -/
def CurrencyRatesCollector.read (c : Cache) : Except PyError (Option CurrencyRatesDTO) :=
  match cacheLookup c CurrencyRatesCollector.get_file_path with
  | none => .error .fileNotFound
  | some entry => do
    let base ← (← entry.payload.index "base").asStr
    let date ← (← entry.payload.index "date").asStr
    let rates ← (← entry.payload.index "rates").asRatesDict
    .ok (some ⟨base, date, rates⟩)

/-- Building the `frozenset` of `LocationDTO` in `CountryCollector.collect`:
each item is subscripted at `"name"`, `"capital"`, `"alpha2code"`, and
pydantic requires string fields with `alpha2code` exactly two characters
(`Field(min_length=2, max_length=2)`).  The frozenset is modelled as the list
in payload order. -/
def parseLocations : List JValue → Except PyError (List LocationDTO)
  | [] => .ok []
  | item :: rest => do
    let country ← (← item.index "name").asStr
    let capital ← (← item.index "capital").asStr
    let code ← (← item.index "alpha2code").asStr
    if code.length = 2 then
      let tail ← parseLocations rest
      .ok (⟨country, capital, code⟩ :: tail)
    else .error .validationError

/-- Result of `CountryCollector.collect`: the storage state after the run, the
remote calls performed, and either the returned value (`some` locations for a
truthy cached payload, `none` for a falsy one) or the exception raised. -/
structure CountryCollectResult where
  fs : FS
  events : List Event
  value : Except PyError (Option (List LocationDTO))

/-- `CountryCollector.collect`: refresh the `country.json` cache when stale
(writing only a truthy `CountryClient.get_countries` response), then reopen the
cached file — raising `FileNotFoundError` when it still does not exist — and
parse the location set out of it.  A truthy payload that is not a JSON array
fails during iteration (`TypeError`). -/
def CountryCollector.collect (fs : FS) (ttl now : Int) (response : JValue) :
    CountryCollectResult :=
  let step := refreshSingle "country" CountryCollector.get_file_path fs ttl now response
  match cacheLookup step.1.cache CountryCollector.get_file_path with
  | none => ⟨step.1, step.2, .error .fileNotFound⟩
  | some entry =>
    if entry.payload.truthy then
      match entry.payload with
      | .arr items =>
        match parseLocations items with
        | .ok locs => ⟨step.1, step.2, .ok (some locs)⟩
        | .error e => ⟨step.1, step.2, .error e⟩
      | _ => ⟨step.1, step.2, .error .typeError⟩
    else ⟨step.1, step.2, .ok none⟩

/-- The per-location loop shared by `WeatherCollector.collect` and
`NewsCollector.collect`: for each location, derive the cache key with `keyOf`,
and when it is stale call the remote client (the `response` function) and write
a truthy result. -/
def collectLocationsGo (category : String) (keyOf : LocationDTO → String)
    (path : String → String) (response : LocationDTO → JValue) (ttl now : Int) :
    FS → List LocationDTO → FS × List Event
  | fs, [] => (fs, [])
  | fs, loc :: rest =>
    let key := path (keyOf loc)
    if isStale fs.cache key ttl now then
      let r := response loc
      let fs1 := if r.truthy then { fs with cache := cacheWrite fs.cache key r now } else fs
      let next := collectLocationsGo category keyOf path response ttl now fs1 rest
      (next.1, Event.remote category key :: next.2)
    else collectLocationsGo category keyOf path response ttl now fs rest

/-- Shared body of `WeatherCollector.collect` and `NewsCollector.collect`: the
category directory is created when missing, then the locations are iterated. -/
def collectLocations (category : String) (keyOf : LocationDTO → String)
    (path : String → String) (fs : FS) (locations : List LocationDTO)
    (ttl now : Int) (response : LocationDTO → JValue) : FS × List Event :=
  collectLocationsGo category keyOf path response ttl now
    (ensureDir fs (MEDIA_PATH ++ "/" ++ category)) locations

/-- The cache filename `WeatherCollector` derives for a location:
lower-cased capital, underscore, alpha-2 code. -/
def WeatherCollector.filename (loc : LocationDTO) : String :=
  pyLower (loc.capital ++ "_" ++ loc.alpha2code)

/-- `WeatherCollector.collect`. -/
def WeatherCollector.collect (fs : FS) (locations : List LocationDTO)
    (ttl now : Int) (response : LocationDTO → JValue) : FS × List Event :=
  collectLocations "weather" WeatherCollector.filename WeatherCollector.get_file_path
    fs locations ttl now response

/-- The cache filename `NewsCollector` derives for a location:
the lower-cased country name. -/
def NewsCollector.filename (loc : LocationDTO) : String :=
  pyLower loc.country

/-- `NewsCollector.collect`. -/
def NewsCollector.collect (fs : FS) (locations : List LocationDTO)
    (ttl now : Int) (response : LocationDTO → JValue) : FS × List Event :=
  collectLocations "news" NewsCollector.filename NewsCollector.get_file_path
    fs locations ttl now response

/-- `WeatherCollector.read`: open the per-location cached file (raising
`FileNotFoundError` when it was never written); a truthy payload is decoded
into a `WeatherInfoDTO` field by field in the constructor's argument order, a
falsy one yields `None`. -/
def WeatherCollector.read (c : Cache) (loc : LocationDTO) :
    Except PyError (Option WeatherInfoDTO) :=
  match cacheLookup c (WeatherCollector.get_file_path (WeatherCollector.filename loc)) with
  | none => .error .fileNotFound
  | some entry =>
    let result := entry.payload
    if result.truthy then do
      let dt ← (← result.index "dt").asNum
      let tz ← (← result.index "timezone").asNum
      let temp ← (← (← result.index "main").index "temp").asNum
      let pressure ← (← (← result.index "main").index "pressure").asNum
      let humidity ← (← (← result.index "main").index "humidity").asNum
      let speed ← (← (← result.index "wind").index "speed").asNum
      let desc ← (← (← (← result.index "weather").listIndex 0).index "description").asStr
      let vis ← (← result.index "visibility").asNum
      .ok (some ⟨dt, tz, temp, pressure, humidity, speed, desc, vis⟩)
    else .ok none

/-- The `validate_author` pydantic validator of `NewsDTO`
(`author : Union[str, None]`): a `None` or empty author becomes `"unknown"`;
values of any other JSON type fail validation. -/
def validate_author : JValue → Except PyError String
  | .null => .ok "unknown"
  | .str s => .ok (if s = "" then "unknown" else s)
  | _ => .error .validationError

/-- Construction of one `NewsDTO` inside `NewsCollector.read`: the article is
subscripted field by field in the constructor's argument order
(`article["source"]["name"]`, `article["author"]`, `article["publishedAt"]`,
`article["title"]`, `article["description"]`), then pydantic validates. -/
def NewsCollector.decodeArticle (article : JValue) : Except PyError NewsDTO := do
  let sourceName ← (← (← article.index "source").index "name").asStr
  let author ← validate_author (← article.index "author")
  let publishedAt ← (← article.index "publishedAt").asStr
  let title ← (← article.index "title").asStr
  let description ← (← article.index "description").asStr
  .ok ⟨sourceName, author, publishedAt, title, description⟩

/-- `NewsCollector.read`: open the per-country cached file (raising
`FileNotFoundError` when it was never written); a truthy payload is
subscripted at `"articles"`, indexed at `number` with Python list indexing,
and the selected article decoded; a falsy payload yields `None`. -/
def NewsCollector.read (c : Cache) (loc : LocationDTO) (number : Int) :
    Except PyError (Option NewsDTO) :=
  match cacheLookup c (NewsCollector.get_file_path (NewsCollector.filename loc)) with
  | none => .error .fileNotFound
  | some entry =>
    let result := entry.payload
    if result.truthy then do
      let articles ← result.index "articles"
      let article ← articles.listIndex number
      let dto ← NewsCollector.decodeArticle article
      .ok (some dto)
    else .ok none

/-- Result of an orchestrated collection run: final storage state, the full
event trace, and either success or the exception that aborted the run. -/
structure OrchestrateResult where
  fs : FS
  trace : List Event
  result : Except PyError Unit

/-- `Collectors.collect` / `Collectors.gather`: first stage runs
`CurrencyRatesCollector.collect()` and `CountryCollector.collect()` (gathered
on one event loop; they touch disjoint cache keys, so their interleaving is
modelled as currency-then-country); then `WeatherCollector.collect` and
`NewsCollector.collect` are each run with `results[1]`, the value returned by
the country collector.  A `None` country result makes
`for location in locations` raise `TypeError` inside the weather collector
(after its directory check); an exception in the first stage propagates out of
`run_until_complete` before weather or news start. -/
def Collectors.collect (fs : FS) (ttlCurrency ttlCountry ttlWeather ttlNews now : Int)
    (currencyResponse countryResponse : JValue)
    (weatherResponse newsResponse : LocationDTO → JValue) : OrchestrateResult :=
  let cr := CurrencyRatesCollector.collect fs ttlCurrency now currencyResponse
  let co := CountryCollector.collect cr.1 ttlCountry now countryResponse
  let stage1 : List Event :=
    Event.start "currency_rates" none :: cr.2
      ++ Event.done "currency_rates" :: Event.start "country" none :: co.events
      ++ [Event.done "country"]
  match co.value with
  | .error e => ⟨co.fs, stage1, .error e⟩
  | .ok none =>
    ⟨ensureDir co.fs (MEDIA_PATH ++ "/weather"),
      stage1 ++ [Event.start "weather" none], .error .typeError⟩
  | .ok (some locs) =>
    let we := WeatherCollector.collect co.fs locs ttlWeather now weatherResponse
    let ne := NewsCollector.collect we.1 locs ttlNews now newsResponse
    ⟨ne.1,
      stage1 ++ Event.start "weather" (some locs) :: we.2
        ++ Event.done "weather" :: Event.start "news" (some locs) :: ne.2
        ++ [Event.done "news"],
      .ok ()⟩

/-! ### Basic cache-store lemmas -/

theorem cacheLookup_write_self (c : Cache) (key : String) (p : JValue) (now : Int) :
    cacheLookup (cacheWrite c key p now) key = some ⟨p, now⟩ := by
  simp [cacheWrite, cacheLookup]

theorem cacheLookup_write_ne (c : Cache) (key k : String) (p : JValue) (now : Int)
    (h : key ≠ k) : cacheLookup (cacheWrite c key p now) k = cacheLookup c k := by
  simp [cacheWrite, cacheLookup, h]

theorem ensureDir_cache (fs : FS) (d : String) : (ensureDir fs d).cache = fs.cache := by
  unfold ensureDir; split <;> rfl

theorem isStale_ensureDir (fs : FS) (d key : String) (ttl now : Int) :
    isStale (ensureDir fs d).cache key ttl now = isStale fs.cache key ttl now := by
  rw [ensureDir_cache]

/-! ### Lemmas about the shared single-key refresh step -/

theorem refreshSingle_fst (category key : String) (fs : FS) (ttl now : Int) (r : JValue) :
    (refreshSingle category key fs ttl now r).1 =
      (if isStale fs.cache key ttl now ∧ r.truthy then
        { fs with cache := cacheWrite fs.cache key r now } else fs) := by
  unfold refreshSingle
  split <;> rename_i h1
  · split <;> rename_i h2 <;> simp [h1, h2]
  · simp [h1]

theorem refreshSingle_fst_falsy (category key : String) (fs : FS) (ttl now : Int) (r : JValue)
    (h : r.truthy = false) : (refreshSingle category key fs ttl now r).1 = fs := by
  rw [refreshSingle_fst]
  simp [h]

theorem refreshSingle_events_category (category key : String) (fs : FS) (ttl now : Int)
    (r : JValue) : ∀ e ∈ (refreshSingle category key fs ttl now r).2, e.category = category := by
  unfold refreshSingle
  split
  · split <;> intro e he <;> simp at he <;> simp [he, Event.category]
  · intro e he; simp at he

theorem refreshSingle_events_key (category key : String) (fs : FS) (ttl now : Int)
    (r : JValue) : ∀ e ∈ (refreshSingle category key fs ttl now r).2,
      e = Event.remote category key := by
  unfold refreshSingle
  split
  · split <;> intro e he <;> simp at he <;> simp [he]
  · intro e he; simp at he

/-- `CountryCollector.collect` returns exactly the storage state and events of
its refresh step; the re-read/parse part only determines the value. -/
theorem country_collect_fs_events (fs : FS) (ttl now : Int) (r : JValue) :
    (CountryCollector.collect fs ttl now r).fs =
      (refreshSingle "country" CountryCollector.get_file_path fs ttl now r).1 ∧
    (CountryCollector.collect fs ttl now r).events =
      (refreshSingle "country" CountryCollector.get_file_path fs ttl now r).2 := by
  constructor <;> (simp only [CountryCollector.collect]; repeat' split) <;> rfl

/-! ### Lemmas about the per-location loop -/

theorem collectLocationsGo_events_category (category : String) (keyOf : LocationDTO → String)
    (path : String → String) (resp : LocationDTO → JValue) (ttl now : Int) :
    ∀ (L : List LocationDTO) (fs : FS),
      ∀ e ∈ (collectLocationsGo category keyOf path resp ttl now fs L).2,
        e.category = category := by
  intro L
  induction L with
  | nil => intro fs e he; simp [collectLocationsGo] at he
  | cons loc rest ih =>
    intro fs e he
    rw [collectLocationsGo] at he
    split at he
    · simp at he
      rcases he with he | he
      · simp [he, Event.category]
      · exact ih _ e he
    · exact ih _ e he

theorem collectLocationsGo_fst_falsy (category : String) (keyOf : LocationDTO → String)
    (path : String → String) (resp : LocationDTO → JValue) (ttl now : Int) :
    ∀ (L : List LocationDTO) (fs : FS), (∀ loc ∈ L, (resp loc).truthy = false) →
      (collectLocationsGo category keyOf path resp ttl now fs L).1 = fs := by
  intro L
  induction L with
  | nil => intro fs _; rfl
  | cons loc rest ih =>
    intro fs h
    rw [collectLocationsGo]
    have hloc : (resp loc).truthy = false := h loc (by simp)
    have hrest : ∀ l ∈ rest, (resp l).truthy = false := fun l hl => h l (by simp [hl])
    split
    · simp [hloc]
      exact ih _ hrest
    · exact ih _ hrest

/-! ### C1: staleness boundary -/

/-- C1: the staleness predicate is true exactly when the key was never written
or its age meets or exceeds the TTL: for an entry written at time `T` with TTL
`d`, any check strictly before `T + d` is fresh and any check from `T + d`
onward (the boundary included) is stale; a never-written key is stale. -/
theorem isStale_boundary (c : Cache) (key : String) (d t : Int) :
    (cacheLookup c key = none → isStale c key d t = true) ∧
    (∀ p T, cacheLookup c key = some ⟨p, T⟩ →
      ((t < T + d → isStale c key d t = false) ∧ (T + d ≤ t → isStale c key d t = true))) := by
  constructor
  · intro h
    simp [isStale, h]
  · intro p T h
    constructor <;> intro ht <;> simp [isStale, h] <;> omega

/-- Witness for `isStale_boundary`: a key written at time 5 with TTL 2 is
fresh at time 6 and stale at the boundary instant 7. -/
theorem isStale_boundary_witness :
    isStale [("media/country.json", ⟨JValue.null, 5⟩)] "media/country.json" 2 6 = false ∧
    isStale [("media/country.json", ⟨JValue.null, 5⟩)] "media/country.json" 2 7 = true ∧
    isStale [] "media/country.json" 2 7 = true :=
  ⟨((isStale_boundary [("media/country.json", ⟨JValue.null, 5⟩)]
      "media/country.json" 2 6).2 JValue.null 5 rfl).1 (by decide),
   ((isStale_boundary [("media/country.json", ⟨JValue.null, 5⟩)]
      "media/country.json" 2 7).2 JValue.null 5 rfl).2 (by decide),
   (isStale_boundary [] "media/country.json" 2 7).1 rfl⟩

/-! ### C5: never-written keys -/

/-- C5: a never-written key is stale for every TTL and time, and the cited
`read` implementations (currency rates, weather) fail with the cache-missing
error (`FileNotFoundError`) for it instead of returning a value; being pure
functions of the cache, they trigger no remote fetch. -/
theorem never_written_stale_and_read_missing (c : Cache) (key : String) (ttl now : Int)
    (loc : LocationDTO) :
    (cacheLookup c key = none → isStale c key ttl now = true) ∧
    (cacheLookup c CurrencyRatesCollector.get_file_path = none →
      CurrencyRatesCollector.read c = .error .fileNotFound) ∧
    (cacheLookup c (WeatherCollector.get_file_path (WeatherCollector.filename loc)) = none →
      WeatherCollector.read c loc = .error .fileNotFound) := by
  refine ⟨fun h => by simp [isStale, h], fun h => ?_, fun h => ?_⟩
  · simp [CurrencyRatesCollector.read, h]
  · simp [WeatherCollector.read, h]

/-- Witness for `never_written_stale_and_read_missing`: the empty cache. -/
theorem never_written_stale_and_read_missing_witness :
    isStale [] "media/currency_rates.json" 86400 123 = true ∧
    CurrencyRatesCollector.read [] = .error .fileNotFound ∧
    WeatherCollector.read [] ⟨"Aland", "Mariehamn", "AX"⟩ = .error .fileNotFound :=
  ⟨(never_written_stale_and_read_missing [] "media/currency_rates.json" 86400 123
      ⟨"Aland", "Mariehamn", "AX"⟩).1 rfl,
   (never_written_stale_and_read_missing [] "media/currency_rates.json" 86400 123
      ⟨"Aland", "Mariehamn", "AX"⟩).2.1 rfl,
   (never_written_stale_and_read_missing [] "media/currency_rates.json" 86400 123
      ⟨"Aland", "Mariehamn", "AX"⟩).2.2 rfl⟩

/-! ### C8: empty location set -/

/-- C8 counterexample: with an empty location set and an initially empty
storage, `WeatherCollector.collect` still mutates durable storage — it creates
the `media/weather` directory — so the call is not entirely free of storage
effects. -/
theorem empty_locations_mkdir_counterexample :
    (WeatherCollector.collect ⟨[], []⟩ [] 60 0 (fun _ => JValue.null)).1.dirs
        = ["media/weather"] ∧
    (NewsCollector.collect ⟨[], []⟩ [] 60 0 (fun _ => JValue.null)).1.dirs
        = ["media/news"] ∧
    ["media/weather"] ≠ ([] : List String) := by
  exact ⟨rfl, rfl, by decide⟩

/-- C8 amended: calling `WeatherCollector.collect` or `NewsCollector.collect`
with an empty location set performs no remote calls and leaves every cache
entry unchanged; the only storage effect is creating the category directory
when it does not exist yet. -/
theorem empty_locations_no_remote_no_cache_change (fs : FS) (ttlW ttlN now : Int)
    (respW respN : LocationDTO → JValue) :
    WeatherCollector.collect fs [] ttlW now respW = (ensureDir fs (MEDIA_PATH ++ "/weather"), []) ∧
    NewsCollector.collect fs [] ttlN now respN = (ensureDir fs (MEDIA_PATH ++ "/news"), []) ∧
    (WeatherCollector.collect fs [] ttlW now respW).1.cache = fs.cache ∧
    (NewsCollector.collect fs [] ttlN now respN).1.cache = fs.cache := by
  refine ⟨rfl, rfl, ?_, ?_⟩ <;>
    simp [WeatherCollector.collect, NewsCollector.collect, collectLocations,
      collectLocationsGo, ensureDir_cache]

/-! ### C2: failed responses -/

/-- C2 counterexample: with an empty cache and a failed remote response
(`None`), `CountryCollector.collect` raises — after skipping the write it
reopens the still-missing `country.json` for reading, which is a
`FileNotFoundError` — so "collect does not raise any error" fails for the
country variant. -/
theorem country_collect_raises_counterexample :
    (CountryCollector.collect ⟨[], []⟩ 60 0 JValue.null).value
        = .error .fileNotFound ∧
    (CountryCollector.collect ⟨[], []⟩ 60 0 JValue.null).fs.cache = [] := ⟨rfl, rfl⟩

/-- C2 amended: on an empty or failed remote response every collector leaves
the cache byte-for-byte unchanged, and none of them raises during the refresh
— except `CountryCollector.collect`, whose unconditional read-back raises the
cache-missing error (`FileNotFoundError`) when no cache entry exists for its
key. -/
theorem collect_falsy_keeps_cache (fs : FS) (ttl now : Int) (r : JValue)
    (locs : List LocationDTO) (resp : LocationDTO → JValue) :
    (r.truthy = false →
      (CurrencyRatesCollector.collect fs ttl now r).1 = fs ∧
      (CountryCollector.collect fs ttl now r).fs = fs ∧
      (cacheLookup fs.cache CountryCollector.get_file_path = none →
        (CountryCollector.collect fs ttl now r).value = .error .fileNotFound)) ∧
    ((∀ loc ∈ locs, (resp loc).truthy = false) →
      (WeatherCollector.collect fs locs ttl now resp).1.cache = fs.cache ∧
      (NewsCollector.collect fs locs ttl now resp).1.cache = fs.cache) := by
  constructor
  · intro hr
    refine ⟨refreshSingle_fst_falsy _ _ _ _ _ _ hr, ?_, ?_⟩
    · rw [(country_collect_fs_events fs ttl now r).1]
      exact refreshSingle_fst_falsy _ _ _ _ _ _ hr
    · intro hmiss
      have hfs := refreshSingle_fst_falsy "country" CountryCollector.get_file_path
        fs ttl now r hr
      simp only [CountryCollector.collect, hfs, hmiss]
  · intro hresp
    constructor <;>
      simp [WeatherCollector.collect, NewsCollector.collect, collectLocations,
        collectLocationsGo_fst_falsy _ _ _ _ _ _ _ _ hresp, ensureDir_cache]

/-- Witness for `collect_falsy_keeps_cache`: a `None` response against a
storage with one stale currency entry and no other entries. -/
theorem collect_falsy_keeps_cache_witness :
    (CurrencyRatesCollector.collect
        ⟨[], [("media/currency_rates.json", ⟨JValue.num 1, 0⟩)]⟩ 60 100 JValue.null).1
      = ⟨[], [("media/currency_rates.json", ⟨JValue.num 1, 0⟩)]⟩ ∧
    (CountryCollector.collect
        ⟨[], [("media/currency_rates.json", ⟨JValue.num 1, 0⟩)]⟩ 60 100 JValue.null).value
      = .error .fileNotFound ∧
    (WeatherCollector.collect
        ⟨[], [("media/currency_rates.json", ⟨JValue.num 1, 0⟩)]⟩
        [⟨"Aland", "Mariehamn", "AX"⟩] 60 100 (fun _ => JValue.null)).1.cache
      = [("media/currency_rates.json", ⟨JValue.num 1, 0⟩)] :=
  ⟨((collect_falsy_keeps_cache ⟨[], [("media/currency_rates.json", ⟨JValue.num 1, 0⟩)]⟩
        60 100 JValue.null [⟨"Aland", "Mariehamn", "AX"⟩] (fun _ => JValue.null)).1
        rfl).1,
   ((collect_falsy_keeps_cache ⟨[], [("media/currency_rates.json", ⟨JValue.num 1, 0⟩)]⟩
        60 100 JValue.null [⟨"Aland", "Mariehamn", "AX"⟩] (fun _ => JValue.null)).1
        rfl).2.2 rfl,
   ((collect_falsy_keeps_cache ⟨[], [("media/currency_rates.json", ⟨JValue.num 1, 0⟩)]⟩
        60 100 JValue.null [⟨"Aland", "Mariehamn", "AX"⟩] (fun _ => JValue.null)).2
        (by intro loc hl; simp at hl; simp [hl, JValue.truthy])).1⟩

/-! ### C4: per-location cache keys -/

theorem collectLocations_singleton_events (category : String) (keyOf : LocationDTO → String)
    (path : String → String) (fs : FS) (loc : LocationDTO) (ttl now : Int)
    (resp : LocationDTO → JValue) :
    (collectLocations category keyOf path fs [loc] ttl now resp).2 = [] ∨
    (collectLocations category keyOf path fs [loc] ttl now resp).2 =
      [Event.remote category (path (keyOf loc))] := by
  simp only [collectLocations, collectLocationsGo]
  split
  · right; rfl
  · left; rfl

theorem collectLocations_singleton_frame (category : String) (keyOf : LocationDTO → String)
    (path : String → String) (fs : FS) (loc : LocationDTO) (ttl now : Int)
    (resp : LocationDTO → JValue) (k : String) (hk : path (keyOf loc) ≠ k) :
    cacheLookup (collectLocations category keyOf path fs [loc] ttl now resp).1.cache k
      = cacheLookup fs.cache k := by
  simp only [collectLocations, collectLocationsGo]
  split
  · split
    · simp [cacheLookup_write_ne _ _ _ _ _ hk, ensureDir_cache]
    · simp [ensureDir_cache]
  · simp [ensureDir_cache]

/-- C4 counterexample: for the location ("Aland", "Mariehamn", "AX") the news
collector derives the cache key from the lower-cased country name — `aland` —
not from the capital and alpha-2 code, and its refresh call touches
`media/news/aland.json`; the claimed key `mariehamn_ax` is wrong for news. -/
theorem news_key_counterexample :
    NewsCollector.filename ⟨"Aland", "Mariehamn", "AX"⟩ = "aland" ∧
    NewsCollector.filename ⟨"Aland", "Mariehamn", "AX"⟩ ≠ "mariehamn_ax" ∧
    (NewsCollector.collect ⟨[], []⟩ [⟨"Aland", "Mariehamn", "AX"⟩] 60 0
        (fun _ => JValue.obj [("articles", JValue.arr [JValue.null])])).2
      = [Event.remote "news" "media/news/aland.json"] := by
  refine ⟨by decide, by decide, by decide⟩

/-- C4 amended: each supplied location yields exactly one cache key per
collector; the weather key is the lower-cased `capital_alpha2code` (for
("Aland","Mariehamn","AX") it is `mariehamn_ax`), while the news key is the
lower-cased country name (`aland` for that location): a singleton collect
calls the remote at most once, only on its derived key, and writes no other
key. -/
theorem per_location_cache_keys (fs : FS) (loc : LocationDTO) (ttl now : Int)
    (resp : LocationDTO → JValue) :
    WeatherCollector.filename ⟨"Aland", "Mariehamn", "AX"⟩ = "mariehamn_ax" ∧
    NewsCollector.filename ⟨"Aland", "Mariehamn", "AX"⟩ = "aland" ∧
    ((WeatherCollector.collect fs [loc] ttl now resp).2 = [] ∨
      (WeatherCollector.collect fs [loc] ttl now resp).2 =
        [Event.remote "weather"
          (WeatherCollector.get_file_path (pyLower (loc.capital ++ "_" ++ loc.alpha2code)))]) ∧
    ((NewsCollector.collect fs [loc] ttl now resp).2 = [] ∨
      (NewsCollector.collect fs [loc] ttl now resp).2 =
        [Event.remote "news" (NewsCollector.get_file_path (pyLower loc.country))]) ∧
    (∀ k, WeatherCollector.get_file_path (pyLower (loc.capital ++ "_" ++ loc.alpha2code)) ≠ k →
      cacheLookup (WeatherCollector.collect fs [loc] ttl now resp).1.cache k
        = cacheLookup fs.cache k) ∧
    (∀ k, NewsCollector.get_file_path (pyLower loc.country) ≠ k →
      cacheLookup (NewsCollector.collect fs [loc] ttl now resp).1.cache k
        = cacheLookup fs.cache k) := by
  refine ⟨by decide, by decide,
    collectLocations_singleton_events _ _ _ _ _ _ _ _,
    collectLocations_singleton_events _ _ _ _ _ _ _ _,
    fun k hk => collectLocations_singleton_frame _ _ _ _ _ _ _ _ _ hk,
    fun k hk => collectLocations_singleton_frame _ _ _ _ _ _ _ _ _ hk⟩

/-- Witness for `per_location_cache_keys` at the Aland location: the weather
run touches only `media/weather/mariehamn_ax.json`, and the untouched
currency key still reads back unchanged. -/
theorem per_location_cache_keys_witness :
    ((WeatherCollector.collect ⟨[], []⟩ [⟨"Aland", "Mariehamn", "AX"⟩] 60 0
        (fun _ => JValue.num 7)).2 = [] ∨
      (WeatherCollector.collect ⟨[], []⟩ [⟨"Aland", "Mariehamn", "AX"⟩] 60 0
        (fun _ => JValue.num 7)).2 =
        [Event.remote "weather"
          (WeatherCollector.get_file_path (pyLower ("Mariehamn" ++ "_" ++ "AX")))]) ∧
    cacheLookup (WeatherCollector.collect ⟨[], []⟩ [⟨"Aland", "Mariehamn", "AX"⟩] 60 0
        (fun _ => JValue.num 7)).1.cache "media/currency_rates.json"
      = cacheLookup ([] : Cache) "media/currency_rates.json" :=
  ⟨(per_location_cache_keys ⟨[], []⟩ ⟨"Aland", "Mariehamn", "AX"⟩ 60 0
      (fun _ => JValue.num 7)).2.2.1,
   (per_location_cache_keys ⟨[], []⟩ ⟨"Aland", "Mariehamn", "AX"⟩ 60 0
      (fun _ => JValue.num 7)).2.2.2.2.1 "media/currency_rates.json" (by decide)⟩

/-! ### Python list-indexing lemmas -/

theorem pyListIndex_ok (l : List JValue) (i : Int)
    (h : -(l.length : Int) ≤ i ∧ i < l.length) :
    ∃ v, pyListIndex l i = .ok v ∧ v ∈ l := by
  unfold pyListIndex
  by_cases hi : i < 0 <;> simp only [hi, if_true, if_false, reduceIte]
  · have hj : 0 ≤ i + l.length ∧ i + l.length < l.length := by omega
    rw [dif_pos hj]
    exact ⟨_, rfl, List.get_mem _ _ _⟩
  · have hj : 0 ≤ i ∧ i < l.length := by omega
    rw [dif_pos hj]
    exact ⟨_, rfl, List.get_mem _ _ _⟩

theorem pyListIndex_err (l : List JValue) (i : Int)
    (h : i < -(l.length : Int) ∨ (l.length : Int) ≤ i) :
    pyListIndex l i = .error .indexError := by
  unfold pyListIndex
  by_cases hi : i < 0 <;> simp only [hi, if_true, if_false, reduceIte] <;>
    rw [dif_neg (by omega)]

/-! ### Sample news payloads used by witnesses -/

/-- A structurally valid cached news article. -/
def sampleArticle : JValue :=
  .obj [("source", .obj [("name", .str "ABC News")]), ("author", .str "Steve"),
        ("publishedAt", .str "2023-02-25 02:22:40"), ("title", .str "T"),
        ("description", .str "D")]

/-- A cached news payload holding two valid articles. -/
def sampleNewsPayload : JValue := .obj [("articles", .arr [sampleArticle, sampleArticle])]

/-- An article whose `title` is a number, which fails pydantic validation. -/
def badTitleArticle : JValue :=
  .obj [("source", .obj [("name", .str "ABC News")]), ("author", .str "Steve"),
        ("publishedAt", .str "2023-02-25 02:22:40"), ("title", .num 3),
        ("description", .str "D")]

/-! ### C10: news article indexing -/

/-- C10 counterexample: with one cached article, `NewsCollector.read` at
`number = -1` does not raise — Python's negative indexing returns the last
article — so "raises an out-of-range error for any number outside
`[0, count)`" is false. -/
theorem news_negative_index_counterexample :
    NewsCollector.read
        [("media/news/aland.json",
          ⟨JValue.obj [("articles", JValue.arr [sampleArticle])], 0⟩)]
        ⟨"Aland", "Mariehamn", "AX"⟩ (-1)
      = .ok (some ⟨"ABC News", "Steve", "2023-02-25 02:22:40", "T", "D"⟩) ∧
    ((-1 : Int) < 0) := ⟨rfl, by decide⟩

/-- C10 amended: `NewsCollector.read` indexes the cached article list without
a bounds check but with Python semantics: for a cached non-empty news payload
whose articles decode, it returns a record exactly when
`-count <= number < count` (negative indices address from the end) and raises
`IndexError` for any `number` outside that range. -/
theorem news_read_index_bounds (c : Cache) (loc : LocationDTO) (number : Int)
    (entry : CacheEntry) (articles : List JValue)
    (hlook : cacheLookup c (NewsCollector.get_file_path (NewsCollector.filename loc))
      = some entry)
    (htruthy : entry.payload.truthy = true)
    (harticles : entry.payload.index "articles" = .ok (JValue.arr articles))
    (hdecode : ∀ a ∈ articles, ∃ d, NewsCollector.decodeArticle a = .ok d) :
    (-(articles.length : Int) ≤ number ∧ number < articles.length →
      ∃ dto, NewsCollector.read c loc number = .ok (some dto)) ∧
    ((number < -(articles.length : Int) ∨ (articles.length : Int) ≤ number) →
      NewsCollector.read c loc number = .error .indexError) := by
  constructor
  · intro hin
    obtain ⟨v, hv, hvm⟩ := pyListIndex_ok articles number hin
    obtain ⟨d, hd⟩ := hdecode v hvm
    refine ⟨d, ?_⟩
    simp [NewsCollector.read, hlook, htruthy, harticles, JValue.listIndex, hv, hd,
      bind, Except.bind]
  · intro hout
    have hv := pyListIndex_err articles number hout
    simp [NewsCollector.read, hlook, htruthy, harticles, JValue.listIndex, hv,
      bind, Except.bind]

/-- Witness for `news_read_index_bounds`: two cached articles; index 1 is
returned, index 2 raises `IndexError`. -/
theorem news_read_index_bounds_witness :
    (∃ dto, NewsCollector.read [("media/news/aland.json", ⟨sampleNewsPayload, 0⟩)]
        ⟨"Aland", "Mariehamn", "AX"⟩ 1 = .ok (some dto)) ∧
    NewsCollector.read [("media/news/aland.json", ⟨sampleNewsPayload, 0⟩)]
        ⟨"Aland", "Mariehamn", "AX"⟩ 2 = .error .indexError :=
  ⟨(news_read_index_bounds [("media/news/aland.json", ⟨sampleNewsPayload, 0⟩)]
      ⟨"Aland", "Mariehamn", "AX"⟩ 1 ⟨sampleNewsPayload, 0⟩ [sampleArticle, sampleArticle]
      rfl rfl rfl
      (by intro a ha; simp [sampleNewsPayload] at ha; rw [ha]; exact ⟨_, rfl⟩)).1
      (by decide),
   (news_read_index_bounds [("media/news/aland.json", ⟨sampleNewsPayload, 0⟩)]
      ⟨"Aland", "Mariehamn", "AX"⟩ 2 ⟨sampleNewsPayload, 0⟩ [sampleArticle, sampleArticle]
      rfl rfl rfl
      (by intro a ha; simp [sampleNewsPayload] at ha; rw [ha]; exact ⟨_, rfl⟩)).2
      (by decide)⟩

/-! ### C9: decode errors and the author default -/

/-- C9 counterexample: a cached article whose `author` is `null` (a missing
field value) is not surfaced as a decode error — `NewsCollector.read`
silently substitutes the default `"unknown"` for it. -/
theorem news_author_default_counterexample :
    NewsCollector.read
        [("media/news/aland.json",
          ⟨JValue.obj [("articles", JValue.arr
            [JValue.obj [("source", JValue.obj [("name", JValue.str "ABC News")]),
              ("author", JValue.null),
              ("publishedAt", JValue.str "2023-02-25 02:22:40"),
              ("title", JValue.str "T"), ("description", JValue.str "D")]])], 0⟩)]
        ⟨"Aland", "Mariehamn", "AX"⟩ 0
      = .ok (some ⟨"ABC News", "unknown", "2023-02-25 02:22:40", "T", "D"⟩) := rfl

/-- C9 amended: when the cached payload does not match the expected structure,
`NewsCollector.read` surfaces the decode error to the caller and never
substitutes defaults — with one exception: the `author` field, where a `null`
or empty author is silently replaced by `"unknown"` by the `validate_author`
validator. -/
theorem news_read_surfaces_decode_errors (c : Cache) (loc : LocationDTO) (number : Int)
    (entry : CacheEntry) (articles : List JValue) (article : JValue)
    (hlook : cacheLookup c (NewsCollector.get_file_path (NewsCollector.filename loc))
      = some entry)
    (htruthy : entry.payload.truthy = true)
    (harticles : entry.payload.index "articles" = .ok (JValue.arr articles))
    (hindex : pyListIndex articles number = .ok article) :
    (∀ e, NewsCollector.decodeArticle article = .error e →
      NewsCollector.read c loc number = .error e) ∧
    (∀ dto, NewsCollector.decodeArticle article = .ok dto →
      NewsCollector.read c loc number = .ok (some dto)) ∧
    ((article.index "author" = .ok JValue.null ∨ article.index "author" = .ok (JValue.str ""))
      → ∀ dto, NewsCollector.decodeArticle article = .ok dto → dto.author = "unknown") := by
  refine ⟨?_, ?_, ?_⟩
  · intro e he
    simp [NewsCollector.read, hlook, htruthy, harticles, JValue.listIndex, hindex, he,
      bind, Except.bind]
  · intro dto hdto
    simp [NewsCollector.read, hlook, htruthy, harticles, JValue.listIndex, hindex, hdto,
      bind, Except.bind]
  · intro hauth dto hdto
    rcases hauth with h | h <;>
      · simp only [NewsCollector.decodeArticle, bind, Except.bind, h, validate_author] at hdto
        repeat' split at hdto
        all_goals (try (cases hdto))
        all_goals simp_all

/-- Witness for `news_read_surfaces_decode_errors`: a cached article with a
numeric title makes `read` fail with the validation error. -/
theorem news_read_surfaces_decode_errors_witness :
    NewsCollector.read
        [("media/news/aland.json",
          ⟨JValue.obj [("articles", JValue.arr [badTitleArticle])], 0⟩)]
        ⟨"Aland", "Mariehamn", "AX"⟩ 0
      = .error .validationError :=
  (news_read_surfaces_decode_errors
      [("media/news/aland.json", ⟨JValue.obj [("articles", JValue.arr [badTitleArticle])], 0⟩)]
      ⟨"Aland", "Mariehamn", "AX"⟩ 0
      ⟨JValue.obj [("articles", JValue.arr [badTitleArticle])], 0⟩
      [badTitleArticle] badTitleArticle rfl rfl rfl rfl).1
    .validationError rfl

/-! ### C7: remote-call idempotence -/

/-- Number of remote calls in a trace that refresh the given cache key. -/
def remoteCount (evs : List Event) (key : String) : Nat :=
  evs.countP (fun e => match e with | .remote _ k => k == key | _ => false)

theorem remoteCount_nil (key : String) : remoteCount [] key = 0 := rfl

theorem remoteCount_append (a b : List Event) (key : String) :
    remoteCount (a ++ b) key = remoteCount a key + remoteCount b key :=
  List.countP_append _ _ _

theorem remoteCount_cons_remote_self (category key : String) (evs : List Event) :
    remoteCount (Event.remote category key :: evs) key = remoteCount evs key + 1 := by
  simp [remoteCount, List.countP_cons]

theorem remoteCount_cons_remote_ne (category k key : String) (evs : List Event)
    (h : k ≠ key) :
    remoteCount (Event.remote category k :: evs) key = remoteCount evs key := by
  simp [remoteCount, List.countP_cons, h]

/-- A fresh entry written at `now` stays fresh at `now` for a positive TTL. -/
theorem isStale_write_self (c : Cache) (key : String) (p : JValue) (ttl now : Int)
    (httl : 0 < ttl) : isStale (cacheWrite c key p now) key ttl now = false := by
  simp [isStale, cacheLookup_write_self]
  omega

theorem isStale_write_ne (c : Cache) (key k : String) (p : JValue) (ttl now : Int)
    (h : key ≠ k) : isStale (cacheWrite c key p now) k ttl now = isStale c k ttl now := by
  simp [isStale, cacheLookup_write_ne _ _ _ _ _ h]

/-- The per-location loop never makes a fresh key stale again. -/
theorem collectLocationsGo_preserves_fresh (category : String) (keyOf : LocationDTO → String)
    (path : String → String) (resp : LocationDTO → JValue) (ttl now : Int)
    (httl : 0 < ttl) :
    ∀ (L : List LocationDTO) (fs : FS) (k : String),
      isStale fs.cache k ttl now = false →
      isStale (collectLocationsGo category keyOf path resp ttl now fs L).1.cache k ttl now
        = false := by
  intro L
  induction L with
  | nil => intro fs k h; exact h
  | cons loc rest ih =>
    intro fs k h
    rw [collectLocationsGo]
    split
    · by_cases htr : (resp loc).truthy
      · simp only [htr, if_true, reduceIte]
        apply ih
        by_cases hk : path (keyOf loc) = k
        · subst hk; exact isStale_write_self _ _ _ _ _ httl
        · rw [isStale_write_ne _ _ _ _ _ _ hk]; exact h
      · simp only [htr, if_false, Bool.false_eq_true, reduceIte]
        exact ih fs k h
    · exact ih fs k h

/-- No remote call is made for a key that is already fresh. -/
theorem collectLocationsGo_count_zero_of_fresh (category : String)
    (keyOf : LocationDTO → String) (path : String → String) (resp : LocationDTO → JValue)
    (ttl now : Int) :
    ∀ (L : List LocationDTO) (fs : FS) (k : String),
      isStale fs.cache k ttl now = false →
      remoteCount (collectLocationsGo category keyOf path resp ttl now fs L).2 k = 0 := by
  intro L
  induction L with
  | nil => intro fs k _; rfl
  | cons loc rest ih =>
    intro fs k h
    rw [collectLocationsGo]
    split <;> rename_i hstale
    · by_cases hk : path (keyOf loc) = k
      · rw [hk] at hstale; rw [h] at hstale; exact absurd hstale (by simp)
      · by_cases htr : (resp loc).truthy
        · simp only [htr, if_true, reduceIte]
          rw [remoteCount_cons_remote_ne _ _ _ _ hk]
          apply ih
          rw [isStale_write_ne _ _ _ _ _ _ hk]
          exact h
        · simp only [htr, if_false, Bool.false_eq_true, reduceIte]
          rw [remoteCount_cons_remote_ne _ _ _ _ hk]
          exact ih fs k h
    · exact ih fs k h

/-- With truthy responses, one pass makes at most one remote call per key. -/
theorem collectLocationsGo_count_le_one (category : String) (keyOf : LocationDTO → String)
    (path : String → String) (resp : LocationDTO → JValue) (ttl now : Int)
    (httl : 0 < ttl) :
    ∀ (L : List LocationDTO) (fs : FS) (k : String),
      (∀ loc ∈ L, (resp loc).truthy = true) →
      remoteCount (collectLocationsGo category keyOf path resp ttl now fs L).2 k ≤ 1 := by
  intro L
  induction L with
  | nil => intro fs k _; exact Nat.zero_le 1
  | cons loc rest ih =>
    intro fs k htr
    have hloc : (resp loc).truthy = true := htr loc (by simp)
    have hrest : ∀ l ∈ rest, (resp l).truthy = true := fun l hl => htr l (by simp [hl])
    rw [collectLocationsGo]
    split
    · simp only [hloc, if_true, reduceIte]
      by_cases hk : path (keyOf loc) = k
      · subst hk
        rw [remoteCount_cons_remote_self]
        have : remoteCount (collectLocationsGo category keyOf path resp ttl now
            { fs with cache := cacheWrite fs.cache (path (keyOf loc)) (resp loc) now }
            rest).2 (path (keyOf loc)) = 0 := by
          apply collectLocationsGo_count_zero_of_fresh
          exact isStale_write_self _ _ _ _ _ httl
        omega
      · rw [remoteCount_cons_remote_ne _ _ _ _ hk]
        exact ih _ k hrest
    · exact ih fs k hrest

/-- With truthy responses, every supplied location's key is fresh after a
pass. -/
theorem collectLocationsGo_fresh_after (category : String) (keyOf : LocationDTO → String)
    (path : String → String) (resp : LocationDTO → JValue) (ttl now : Int)
    (httl : 0 < ttl) :
    ∀ (L : List LocationDTO) (fs : FS),
      (∀ loc ∈ L, (resp loc).truthy = true) →
      ∀ loc ∈ L,
        isStale (collectLocationsGo category keyOf path resp ttl now fs L).1.cache
          (path (keyOf loc)) ttl now = false := by
  intro L
  induction L with
  | nil => intro fs _ loc hl; simp at hl
  | cons loc0 rest ih =>
    intro fs htr loc hl
    have hloc0 : (resp loc0).truthy = true := htr loc0 (by simp)
    have hrest : ∀ l ∈ rest, (resp l).truthy = true := fun l h => htr l (by simp [h])
    rw [collectLocationsGo]
    split <;> rename_i hstale
    · simp only [hloc0, if_true, reduceIte]
      rcases List.mem_cons.mp hl with h0 | hmem
      · subst h0
        apply collectLocationsGo_preserves_fresh _ _ _ _ _ _ httl
        exact isStale_write_self _ _ _ _ _ httl
      · exact ih _ hrest loc hmem
    · rcases List.mem_cons.mp hl with h0 | hmem
      · subst h0
        apply collectLocationsGo_preserves_fresh _ _ _ _ _ _ httl
        exact Bool.eq_false_iff.mpr hstale
      · exact ih fs hrest loc hmem

/-- Every remote call of the loop targets the key derived from one of the
supplied locations. -/
theorem collectLocationsGo_events_keys (category : String) (keyOf : LocationDTO → String)
    (path : String → String) (resp : LocationDTO → JValue) (ttl now : Int) :
    ∀ (L : List LocationDTO) (fs : FS),
      ∀ e ∈ (collectLocationsGo category keyOf path resp ttl now fs L).2,
        ∃ loc ∈ L, e = Event.remote category (path (keyOf loc)) := by
  intro L
  induction L with
  | nil => intro fs e he; simp [collectLocationsGo] at he
  | cons loc rest ih =>
    intro fs e he
    rw [collectLocationsGo] at he
    split at he
    · simp at he
      rcases he with he | he
      · exact ⟨loc, by simp, he⟩
      · obtain ⟨l, hl, hel⟩ := ih _ e he
        exact ⟨l, by simp [hl], hel⟩
    · obtain ⟨l, hl, hel⟩ := ih _ e he
      exact ⟨l, by simp [hl], hel⟩

theorem remoteCount_zero_of_no_key (evs : List Event) (key : String)
    (h : ∀ e ∈ evs, ∀ category, e ≠ Event.remote category key) :
    remoteCount evs key = 0 := by
  rw [remoteCount, List.countP_eq_zero]
  intro e he
  cases e with
  | start c a => simp
  | done c => simp
  | remote c k =>
    have hne := h _ he c
    simp only [ne_eq, Event.remote.injEq] at hne
    exact fun hkk => hne ⟨trivial, eq_of_beq hkk⟩

/-- Two successive passes of the per-location collect make at most one remote
call per cache key. -/
theorem collectLocations_twice_count (category : String) (keyOf : LocationDTO → String)
    (path : String → String) (fs : FS) (L : List LocationDTO) (ttl now : Int)
    (resp : LocationDTO → JValue) (httl : 0 < ttl)
    (htr : ∀ loc ∈ L, (resp loc).truthy = true) (key : String) :
    remoteCount ((collectLocations category keyOf path fs L ttl now resp).2 ++
      (collectLocations category keyOf path
        (collectLocations category keyOf path fs L ttl now resp).1 L ttl now resp).2)
      key ≤ 1 := by
  rw [remoteCount_append]
  by_cases hk : ∃ loc ∈ L, path (keyOf loc) = key
  · obtain ⟨loc, hl, hkey⟩ := hk
    have h1 : remoteCount (collectLocations category keyOf path fs L ttl now resp).2 key
        ≤ 1 := collectLocationsGo_count_le_one _ _ _ _ _ _ httl _ _ _ htr
    have hfresh : isStale (collectLocations category keyOf path fs L ttl now resp).1.cache
        key ttl now = false := by
      rw [← hkey]
      exact collectLocationsGo_fresh_after _ _ _ _ _ _ httl _ _ htr loc hl
    have h2 : remoteCount (collectLocations category keyOf path
        (collectLocations category keyOf path fs L ttl now resp).1 L ttl now resp).2 key
        = 0 := by
      apply collectLocationsGo_count_zero_of_fresh
      rw [ensureDir_cache]
      exact hfresh
    omega
  · push_neg at hk
    have h1 : remoteCount (collectLocations category keyOf path fs L ttl now resp).2 key
        = 0 := by
      apply remoteCount_zero_of_no_key
      intro e he c
      obtain ⟨l, hl, hel⟩ := collectLocationsGo_events_keys _ _ _ _ _ _ _ _ e he
      rw [hel]
      simp only [ne_eq, Event.remote.injEq, not_and]
      intro _
      exact hk l hl
    have h2 : remoteCount (collectLocations category keyOf path
        (collectLocations category keyOf path fs L ttl now resp).1 L ttl now resp).2 key
        = 0 := by
      apply remoteCount_zero_of_no_key
      intro e he c
      obtain ⟨l, hl, hel⟩ := collectLocationsGo_events_keys _ _ _ _ _ _ _ _ e he
      rw [hel]
      simp only [ne_eq, Event.remote.injEq, not_and]
      intro _
      exact hk l hl
    omega

/-- Two successive runs of the shared single-key refresh make at most one
remote call per key, provided the TTL is positive and the response truthy. -/
theorem refreshSingle_twice_count (category key : String) (fs : FS) (ttl now : Int)
    (r : JValue) (httl : 0 < ttl) (hr : r.truthy = true) (k : String) :
    remoteCount ((refreshSingle category key fs ttl now r).2 ++
      (refreshSingle category key (refreshSingle category key fs ttl now r).1
        ttl now r).2) k ≤ 1 := by
  rw [remoteCount_append]
  unfold refreshSingle
  split <;> rename_i hstale
  · simp only [hr, if_true, reduceIte]
    have hfresh : isStale (cacheWrite fs.cache key r now) key ttl now = false :=
      isStale_write_self _ _ _ _ _ httl
    simp only [hfresh, Bool.false_eq_true, if_false, reduceIte]
    by_cases hk : key = k
    · subst hk
      rw [remoteCount_cons_remote_self]
      simp [remoteCount_nil]
    · rw [remoteCount_cons_remote_ne _ _ _ _ hk]
      simp [remoteCount_nil]
  · simp only [Bool.not_eq_true] at hstale
    simp only [hstale, Bool.false_eq_true, if_false, reduceIte]
    simp [remoteCount_nil]

/-- C7 counterexample: two immediate successive `collect` calls are not
limited to one remote call per key: with a failed (`None`) response the entry
stays stale and both calls hit the remote; with a zero TTL (a legal "always
stale" configuration) even successful writes leave the entry stale at the same
instant and both calls hit the remote. -/
theorem collect_twice_counterexample :
    remoteCount ((CurrencyRatesCollector.collect ⟨[], []⟩ 60 5 JValue.null).2 ++
        (CurrencyRatesCollector.collect (CurrencyRatesCollector.collect ⟨[], []⟩ 60 5
          JValue.null).1 60 5 JValue.null).2) "media/currency_rates.json" = 2 ∧
    remoteCount ((CurrencyRatesCollector.collect ⟨[], []⟩ 0 5 (JValue.num 1)).2 ++
        (CurrencyRatesCollector.collect (CurrencyRatesCollector.collect ⟨[], []⟩ 0 5
          (JValue.num 1)).1 0 5 (JValue.num 1)).2) "media/currency_rates.json" = 2 ∧
    ¬(2 ≤ 1) := by
  refine ⟨by decide, by decide, by decide⟩

/-- C7 amended: for a positive TTL and a remote that returns a successful
truthy response, calling `collect` twice in immediate succession from any
cache state performs at most one remote call per cache key, for every
collector variant: the first call's write makes the entry fresh, so the second
call's staleness check is false. -/
theorem collect_idempotent_remote_calls (fs : FS) (ttl now : Int) (r : JValue)
    (L : List LocationDTO) (resp : LocationDTO → JValue) (httl : 0 < ttl)
    (key : String) :
    (r.truthy = true →
      remoteCount ((CurrencyRatesCollector.collect fs ttl now r).2 ++
        (CurrencyRatesCollector.collect (CurrencyRatesCollector.collect fs ttl now r).1
          ttl now r).2) key ≤ 1) ∧
    (r.truthy = true →
      remoteCount ((CountryCollector.collect fs ttl now r).events ++
        (CountryCollector.collect (CountryCollector.collect fs ttl now r).fs
          ttl now r).events) key ≤ 1) ∧
    ((∀ loc ∈ L, (resp loc).truthy = true) →
      remoteCount ((WeatherCollector.collect fs L ttl now resp).2 ++
        (WeatherCollector.collect (WeatherCollector.collect fs L ttl now resp).1 L
          ttl now resp).2) key ≤ 1) ∧
    ((∀ loc ∈ L, (resp loc).truthy = true) →
      remoteCount ((NewsCollector.collect fs L ttl now resp).2 ++
        (NewsCollector.collect (NewsCollector.collect fs L ttl now resp).1 L
          ttl now resp).2) key ≤ 1) := by
  refine ⟨fun hr => refreshSingle_twice_count _ _ _ _ _ _ httl hr key,
    fun hr => ?_,
    fun htr => collectLocations_twice_count _ _ _ _ _ _ _ _ httl htr key,
    fun htr => collectLocations_twice_count _ _ _ _ _ _ _ _ httl htr key⟩
  rw [(country_collect_fs_events fs ttl now r).2,
    (country_collect_fs_events ((CountryCollector.collect fs ttl now r).fs) ttl now r).2,
    (country_collect_fs_events fs ttl now r).1]
  exact refreshSingle_twice_count _ _ _ _ _ _ httl hr key

/-- Witness for `collect_idempotent_remote_calls`: a double currency run and
a double news run on an initially empty storage. -/
theorem collect_idempotent_remote_calls_witness :
    remoteCount ((CurrencyRatesCollector.collect ⟨[], []⟩ 60 5 (JValue.num 1)).2 ++
      (CurrencyRatesCollector.collect (CurrencyRatesCollector.collect ⟨[], []⟩ 60 5
        (JValue.num 1)).1 60 5 (JValue.num 1)).2) "media/currency_rates.json" ≤ 1 ∧
    remoteCount ((NewsCollector.collect ⟨[], []⟩ [⟨"Aland", "Mariehamn", "AX"⟩] 60 5
        (fun _ => JValue.num 7)).2 ++
      (NewsCollector.collect (NewsCollector.collect ⟨[], []⟩ [⟨"Aland", "Mariehamn", "AX"⟩]
        60 5 (fun _ => JValue.num 7)).1 [⟨"Aland", "Mariehamn", "AX"⟩] 60 5
        (fun _ => JValue.num 7)).2) "media/news/aland.json" ≤ 1 :=
  ⟨(collect_idempotent_remote_calls ⟨[], []⟩ 60 5 (JValue.num 1)
      [⟨"Aland", "Mariehamn", "AX"⟩] (fun _ => JValue.num 7) (by decide)
      "media/currency_rates.json").1 rfl,
   (collect_idempotent_remote_calls ⟨[], []⟩ 60 5 (JValue.num 1)
      [⟨"Aland", "Mariehamn", "AX"⟩] (fun _ => JValue.num 7) (by decide)
      "media/news/aland.json").2.2.2 (fun _ _ => rfl)⟩

/-! ### C3 and C6: orchestration -/

/-- In a concatenated trace whose first part satisfies `p` everywhere and
whose second part satisfies `q` everywhere, with `p` and `q` exclusive, every
`p`-event strictly precedes every `q`-event. -/
theorem append_stage_lt (A B : List Event) (p q : Event → Prop)
    (hA : ∀ e ∈ A, p e) (hB : ∀ e ∈ B, q e) (hpq : ∀ e, p e → q e → False) :
    ∀ i j (hi : i < (A ++ B).length) (hj : j < (A ++ B).length),
      p ((A ++ B).get ⟨i, hi⟩) → q ((A ++ B).get ⟨j, hj⟩) → i < j := by
  intro i j hi hj hpi hqj
  have hiA : i < A.length := by
    by_contra hcon
    push_neg at hcon
    have hmem : (A ++ B).get ⟨i, hi⟩ ∈ B := by
      rw [List.get_eq_getElem, List.getElem_append_right hcon]
      exact List.getElem_mem _
    exact hpq _ hpi (hB _ hmem)
  have hjA : A.length ≤ j := by
    by_contra hcon
    push_neg at hcon
    have hmem : (A ++ B).get ⟨j, hj⟩ ∈ A := by
      rw [List.get_eq_getElem, List.getElem_append_left hcon]
      exact List.getElem_mem _
    exact hpq _ (hA _ hmem) hqj
  omega

/-- The first-stage part of the orchestrated trace. -/
def stageOneTrace (fs : FS) (tc tco now : Int) (rc rco : JValue) : List Event :=
  Event.start "currency_rates" none :: (CurrencyRatesCollector.collect fs tc now rc).2
    ++ Event.done "currency_rates" :: Event.start "country" none ::
      (CountryCollector.collect (CurrencyRatesCollector.collect fs tc now rc).1
        tco now rco).events
    ++ [Event.done "country"]

theorem stageOneTrace_categories (fs : FS) (tc tco now : Int) (rc rco : JValue) :
    ∀ e ∈ stageOneTrace fs tc tco now rc rco,
      e.category = "currency_rates" ∨ e.category = "country" := by
  intro e he
  simp only [stageOneTrace, List.mem_cons, List.mem_append, List.mem_singleton] at he
  rcases he with ((h | h) | h | h | h) | h
  · left; simp [h, Event.category]
  · left; exact refreshSingle_events_category _ _ _ _ _ _ _ h
  · left; simp [h, Event.category]
  · right; simp [h, Event.category]
  · right
    rw [(country_collect_fs_events _ _ _ _).2] at h
    exact refreshSingle_events_category _ _ _ _ _ _ _ h
  · rcases h with h | h
    · right; simp [h, Event.category]
    · simp at h

theorem refreshSingle_no_start (category key : String) (fs : FS) (ttl now : Int) (r : JValue)
    (c' : String) (arg : Option (List LocationDTO)) :
    Event.start c' arg ∉ (refreshSingle category key fs ttl now r).2 := by
  intro hmem
  have := refreshSingle_events_key category key fs ttl now r _ hmem
  simp at this

theorem collectLocationsGo_no_start (category : String) (keyOf : LocationDTO → String)
    (path : String → String) (resp : LocationDTO → JValue) (ttl now : Int)
    (L : List LocationDTO) (fs : FS) (c' : String) (arg : Option (List LocationDTO)) :
    Event.start c' arg ∉ (collectLocationsGo category keyOf path resp ttl now fs L).2 := by
  intro hmem
  obtain ⟨l, _, hel⟩ := collectLocationsGo_events_keys category keyOf path resp ttl now
    L fs _ hmem
  simp at hel

theorem start_not_mem_stageOne (fs : FS) (tc tco now : Int) (rc rco : JValue)
    (c' : String) (arg : Option (List LocationDTO))
    (hc1 : c' ≠ "currency_rates") (hc2 : c' ≠ "country") :
    Event.start c' arg ∉ stageOneTrace fs tc tco now rc rco := by
  intro hmem
  rcases stageOneTrace_categories fs tc tco now rc rco _ hmem with h | h <;>
    simp [Event.category] at h <;> simp_all

/-- The orchestrated trace decomposes as the first-stage trace followed by a
tail of weather/news events, and every collector invocation recorded in the
tail received exactly the value returned by the country collector. -/
theorem collectors_trace_shape (fs : FS) (tc tco tw tn now : Int) (rc rco : JValue)
    (rweather rnews : LocationDTO → JValue) :
    ∃ tail : List Event,
      (Collectors.collect fs tc tco tw tn now rc rco rweather rnews).trace
        = stageOneTrace fs tc tco now rc rco ++ tail ∧
      (∀ e ∈ tail, e.category = "weather" ∨ e.category = "news") ∧
      (∀ c' arg, Event.start c' arg ∈ tail →
        (CountryCollector.collect (CurrencyRatesCollector.collect fs tc now rc).1
          tco now rco).value = .ok arg) := by
  simp only [Collectors.collect]
  split <;> rename_i heq
  · exact ⟨[], by simp [stageOneTrace], by simp, by simp⟩
  · refine ⟨[Event.start "weather" none], by simp [stageOneTrace], ?_, ?_⟩
    · intro e he
      rw [List.mem_singleton] at he
      subst he
      left
      rfl
    · intro c' arg hmem
      rw [List.mem_singleton] at hmem
      cases hmem
      rw [heq]
  · rename_i locs
    refine ⟨Event.start "weather" (some locs) ::
        ((WeatherCollector.collect (CountryCollector.collect
          (CurrencyRatesCollector.collect fs tc now rc).1 tco now rco).fs locs tw now
          rweather).2
        ++ Event.done "weather" :: Event.start "news" (some locs) ::
          ((NewsCollector.collect (WeatherCollector.collect (CountryCollector.collect
            (CurrencyRatesCollector.collect fs tc now rc).1 tco now rco).fs locs tw now
            rweather).1 locs tn now rnews).2
          ++ [Event.done "news"])), by simp [stageOneTrace], ?_, ?_⟩
    · intro e he
      rcases List.mem_cons.mp he with h | he
      · subst h; left; rfl
      rcases List.mem_append.mp he with h | he
      · left
        exact collectLocationsGo_events_category _ _ _ _ _ _ _ _ _ h
      rcases List.mem_cons.mp he with h | he
      · subst h; left; rfl
      rcases List.mem_cons.mp he with h | he
      · subst h; right; rfl
      rcases List.mem_append.mp he with h | he
      · right
        exact collectLocationsGo_events_category _ _ _ _ _ _ _ _ _ h
      · rw [List.mem_singleton] at he; subst he; right; rfl
    · intro c' arg hmem
      rcases List.mem_cons.mp hmem with h | hmem
      · cases h; rw [heq]
      rcases List.mem_append.mp hmem with h | hmem
      · exact absurd h (collectLocationsGo_no_start _ _ _ _ _ _ _ _ _ _)
      rcases List.mem_cons.mp hmem with h | hmem
      · cases h
      rcases List.mem_cons.mp hmem with h | hmem
      · cases h; rw [heq]
      rcases List.mem_append.mp hmem with h | hmem
      · exact absurd h (collectLocationsGo_no_start _ _ _ _ _ _ _ _ _ _)
      · rw [List.mem_singleton] at hmem; cases hmem

/-- C3: in every orchestrated collection run, all currency-rates and country
events (invocation, remote calls, completion) occur strictly before every
weather or news event, and each invocation of the weather and news collectors
receives exactly the location set value returned by the country collector. -/
theorem orchestrator_stage_ordering (fs : FS) (tc tco tw tn now : Int) (rc rco : JValue)
    (rweather rnews : LocationDTO → JValue) (R : OrchestrateResult)
    (hR : R = Collectors.collect fs tc tco tw tn now rc rco rweather rnews) :
    (∀ i j (hi : i < R.trace.length) (hj : j < R.trace.length),
      ((R.trace.get ⟨i, hi⟩).category = "currency_rates" ∨
        (R.trace.get ⟨i, hi⟩).category = "country") →
      ((R.trace.get ⟨j, hj⟩).category = "weather" ∨
        (R.trace.get ⟨j, hj⟩).category = "news") → i < j) ∧
    (∀ arg, Event.start "weather" arg ∈ R.trace →
      (CountryCollector.collect (CurrencyRatesCollector.collect fs tc now rc).1
        tco now rco).value = .ok arg) ∧
    (∀ arg, Event.start "news" arg ∈ R.trace →
      (CountryCollector.collect (CurrencyRatesCollector.collect fs tc now rc).1
        tco now rco).value = .ok arg) := by
  subst hR
  obtain ⟨tail, htr, hcat, hstart⟩ :=
    collectors_trace_shape fs tc tco tw tn now rc rco rweather rnews
  refine ⟨?_, ?_, ?_⟩
  · rw [htr]
    apply append_stage_lt _ _ _ _ (stageOneTrace_categories fs tc tco now rc rco) hcat
    intro e hp hq
    rcases hp with hp | hp <;> rcases hq with hq | hq <;> rw [hp] at hq <;> simp at hq
  · intro arg hmem
    rw [htr] at hmem
    rcases List.mem_append.mp hmem with h | h
    · exact absurd h (start_not_mem_stageOne fs tc tco now rc rco "weather" arg
        (by decide) (by decide))
    · exact hstart _ _ h
  · intro arg hmem
    rw [htr] at hmem
    rcases List.mem_append.mp hmem with h | h
    · exact absurd h (start_not_mem_stageOne fs tc tco now rc rco "news" arg
        (by decide) (by decide))
    · exact hstart _ _ h

def demoLocation : LocationDTO := ⟨"Aland", "Mariehamn", "AX"⟩

def demoCountryPayload : JValue :=
  .arr [.obj [("name", .str "Aland"), ("capital", .str "Mariehamn"),
    ("alpha2code", .str "AX")]]

def demoRatesPayload : JValue :=
  .obj [("base", .str "RUB"), ("date", .str "2022-09-14"), ("rates", .obj [("EUR", .num 1)])]

def demoRun : OrchestrateResult :=
  Collectors.collect ⟨[], []⟩ 60 60 60 60 0 demoRatesPayload demoCountryPayload
    (fun _ => JValue.num 7) (fun _ => JValue.num 8)

/-- Witness for `orchestrator_stage_ordering`: in the demo run, the currency
remote call (index 1) precedes the weather invocation (index 6), and the
weather collector was invoked with the singleton Aland location set the
country collector produced. -/
theorem orchestrator_stage_ordering_witness :
    (1 : Nat) < 6 ∧
    (CountryCollector.collect (CurrencyRatesCollector.collect ⟨[], []⟩ 60 0
        demoRatesPayload).1 60 0 demoCountryPayload).value = .ok (some [demoLocation]) :=
  ⟨(orchestrator_stage_ordering ⟨[], []⟩ 60 60 60 60 0 demoRatesPayload demoCountryPayload
      (fun _ => JValue.num 7) (fun _ => JValue.num 8) demoRun rfl).1 1 6
      (by decide) (by decide) (by decide) (by decide),
   (orchestrator_stage_ordering ⟨[], []⟩ 60 60 60 60 0 demoRatesPayload demoCountryPayload
      (fun _ => JValue.num 7) (fun _ => JValue.num 8) demoRun rfl).2.1 (some [demoLocation])
      (by decide)⟩

/-- C6: when the currency-rates branch of the concurrent first stage fails
(the client returns `None`), its storage state is untouched, the sibling
country branch is not aborted — it runs on the very same storage — and the
orchestrator still proceeds to invoke the weather and news collectors with
the country result and reports success. -/
theorem first_stage_failure_isolated (fs : FS) (tc tco tw tn now : Int) (rco : JValue)
    (rweather rnews : LocationDTO → JValue) (rc : JValue) (hrc : rc.truthy = false) :
    (CurrencyRatesCollector.collect fs tc now rc).1 = fs ∧
    (∀ locs, (CountryCollector.collect fs tco now rco).value = .ok (some locs) →
      (Collectors.collect fs tc tco tw tn now rc rco rweather rnews).result = .ok () ∧
      Event.start "weather" (some locs)
        ∈ (Collectors.collect fs tc tco tw tn now rc rco rweather rnews).trace ∧
      Event.start "news" (some locs)
        ∈ (Collectors.collect fs tc tco tw tn now rc rco rweather rnews).trace ∧
      (Collectors.collect fs tc tco tw tn now rc rco rweather rnews).fs =
        (NewsCollector.collect (WeatherCollector.collect
          (CountryCollector.collect fs tco now rco).fs locs tw now rweather).1
          locs tn now rnews).1) := by
  have h1 : (CurrencyRatesCollector.collect fs tc now rc).1 = fs :=
    refreshSingle_fst_falsy _ _ _ _ _ _ hrc
  refine ⟨h1, ?_⟩
  intro locs hco
  simp only [Collectors.collect, h1, hco]
  exact ⟨trivial, by simp, by simp, trivial⟩

/-- Witness for `first_stage_failure_isolated`: a failing currency response
against an empty storage with a good country payload. -/
theorem first_stage_failure_isolated_witness :
    (CurrencyRatesCollector.collect ⟨[], []⟩ 60 0 JValue.null).1 = (⟨[], []⟩ : FS) ∧
    (Collectors.collect ⟨[], []⟩ 60 60 60 60 0 JValue.null demoCountryPayload
      (fun _ => JValue.num 7) (fun _ => JValue.num 8)).result = .ok () :=
  ⟨(first_stage_failure_isolated ⟨[], []⟩ 60 60 60 60 0 demoCountryPayload
      (fun _ => JValue.num 7) (fun _ => JValue.num 8) JValue.null rfl).1,
   ((first_stage_failure_isolated ⟨[], []⟩ 60 60 60 60 0 demoCountryPayload
      (fun _ => JValue.num 7) (fun _ => JValue.num 8) JValue.null rfl).2
      [demoLocation] rfl).1⟩
